import Mathlib

/-!
Verification of the rust-load-balancer core against its specification.

Each Rust component relevant to the claims is shallowly embedded as a pure
Lean definition: atomics become explicit state passing, `Instant` timestamps
become natural-number milliseconds, and the random jitter factor becomes an
explicit rational parameter in `[0, 1)`.  Machine-integer wraparound of the
Rust atomics (`AtomicU32`, `AtomicU64`, `AtomicUsize`) is modelled with
explicit `% 2^w` where the source can wrap.
-/

/-- Width constant for `u32` atomics (`AtomicU32::fetch_add` wraps at this). -/
def U32 : Nat := 2 ^ 32

/-- Width constant for `u64` / `usize` atomics (the build targets 64-bit). -/
def USIZE : Nat := 2 ^ 64

/-! ## Circuit breaker (src/circuit_breaker/breaker.rs) -/

/-- The three states of `CircuitBreakerState` in breaker.rs. -/
inductive CircuitBreakerState
  | Closed
  | Open
  | HalfOpen
  deriving Repr, DecidableEq

/-- Rust `CircuitBreakerConfig` (src/config/mod.rs): thresholds are `u32`, the
cool-down `timeout` is modelled in the same abstract time unit as the
`now` arguments below. -/
structure CircuitBreakerConfig where
  failure_threshold : Nat
  success_threshold : Nat
  timeout : Nat
  deriving Repr, DecidableEq

/-- The mutable fields of `CircuitBreaker` in breaker.rs.  `Instant` values
are abstract timestamps (Nat); `last_failure_time` mirrors the
`RwLock<Option<Instant>>` field. -/
structure CircuitBreaker where
  state : CircuitBreakerState
  failure_count : Nat
  success_count : Nat
  last_failure_time : Option Nat
  total_requests : Nat
  failed_requests : Nat
  deriving Repr, DecidableEq

/-- Rust `CircuitBreaker::new`: starts Closed with zeroed counters. -/
def CircuitBreaker.new : CircuitBreaker :=
  { state := .Closed
    failure_count := 0
    success_count := 0
    last_failure_time := none
    total_requests := 0
    failed_requests := 0 }

/-- Rust `CircuitBreaker::transition_to_open`: sets state Open, stamps
`last_failure_time` with now, clears `success_count`. -/
def CircuitBreaker.transition_to_open (now : Nat) (cb : CircuitBreaker) : CircuitBreaker :=
  { cb with
    state := .Open
    last_failure_time := some now
    success_count := 0 }

/-- Rust `CircuitBreaker::transition_to_half_open`: sets state HalfOpen and
clears both streak counters. -/
def CircuitBreaker.transition_to_half_open (cb : CircuitBreaker) : CircuitBreaker :=
  { cb with
    state := .HalfOpen
    failure_count := 0
    success_count := 0 }

/-- Rust `CircuitBreaker::transition_to_closed`: sets state Closed, clears both
counters and `last_failure_time`. -/
def CircuitBreaker.transition_to_closed (cb : CircuitBreaker) : CircuitBreaker :=
  { cb with
    state := .Closed
    failure_count := 0
    success_count := 0
    last_failure_time := none }

/-- Rust `CircuitBreaker::call_permitted` at time `now`: returns the permit
decision and the (possibly Open-to-HalfOpen transitioned) breaker.
`last_failure.elapsed()` is `now - t`. -/
def CircuitBreaker.call_permitted (cfg : CircuitBreakerConfig) (now : Nat)
    (cb : CircuitBreaker) : Bool × CircuitBreaker :=
  match cb.state with
  | .Closed => (true, cb)
  | .Open =>
      match cb.last_failure_time with
      | some t =>
          if cfg.timeout ≤ now - t then
            (true, cb.transition_to_half_open)
          else
            (false, cb)
      | none => (false, cb)
  | .HalfOpen => (true, cb)

/-- Rust `CircuitBreaker::record_success`.  The `fetch_add` on the `AtomicU32`
`success_count` wraps at `2^32`, mirrored by the explicit `% U32`. -/
def CircuitBreaker.record_success (cfg : CircuitBreakerConfig)
    (cb : CircuitBreaker) : CircuitBreaker :=
  let cb := { cb with total_requests := cb.total_requests + 1 }
  match cb.state with
  | .Closed => { cb with failure_count := 0 }
  | .HalfOpen =>
      let success_count := (cb.success_count + 1) % U32
      let cb := { cb with success_count := success_count }
      if cfg.success_threshold ≤ success_count then
        cb.transition_to_closed
      else
        cb
  | .Open => cb.transition_to_closed

/-- Rust `CircuitBreaker::record_failure` at time `now`.  The `fetch_add` on the
`AtomicU32` `failure_count` wraps at `2^32`. -/
def CircuitBreaker.record_failure (cfg : CircuitBreakerConfig) (now : Nat)
    (cb : CircuitBreaker) : CircuitBreaker :=
  let cb := { cb with
    total_requests := cb.total_requests + 1
    failed_requests := cb.failed_requests + 1 }
  match cb.state with
  | .Closed =>
      let failure_count := (cb.failure_count + 1) % U32
      let cb := { cb with failure_count := failure_count }
      if cfg.failure_threshold ≤ failure_count then
        cb.transition_to_open now
      else
        cb
  | .HalfOpen => cb.transition_to_open now
  | .Open => { cb with last_failure_time := some now }

/-- The event alphabet of the breaker: the two outcome recordings and the
pre-dispatch permit probe, each carrying the time at which it happens. -/
inductive CBEvent
  | success
  | failure (now : Nat)
  | permit (now : Nat)

/-- One breaker event applied to a breaker. -/
def CircuitBreaker.step (cfg : CircuitBreakerConfig) (cb : CircuitBreaker) :
    CBEvent → CircuitBreaker
  | .success => cb.record_success cfg
  | .failure now => cb.record_failure cfg now
  | .permit now => (cb.call_permitted cfg now).2

/-- Breaker states reachable from `CircuitBreaker.new` under any sequence of
success / failure / permit events. -/
inductive CBReachable (cfg : CircuitBreakerConfig) : CircuitBreaker → Prop
  | init : CBReachable cfg CircuitBreaker.new
  | step {cb : CircuitBreaker} (e : CBEvent) :
      CBReachable cfg cb → CBReachable cfg (cb.step cfg e)

/-- Operating invariant of the breaker: in Closed the failure streak is
strictly below the threshold, in Open a failure time is recorded, in
HalfOpen the success streak is strictly below its threshold. -/
def CBInv (cfg : CircuitBreakerConfig) (cb : CircuitBreaker) : Prop :=
  (cb.state = .Closed → cb.failure_count < cfg.failure_threshold) ∧
  (cb.state = .Open → cb.last_failure_time ≠ none) ∧
  (cb.state = .HalfOpen → cb.success_count < cfg.success_threshold)

theorem cbInv_new (cfg : CircuitBreakerConfig)
    (hf1 : 1 ≤ cfg.failure_threshold) (hs1 : 1 ≤ cfg.success_threshold) :
    CBInv cfg CircuitBreaker.new := by
  refine ⟨fun _ => ?_, fun h => ?_, fun h => ?_⟩
  · simpa [CircuitBreaker.new] using hf1
  · simp [CircuitBreaker.new] at h
  · simp [CircuitBreaker.new] at h

theorem cbInv_step (cfg : CircuitBreakerConfig)
    (hf1 : 1 ≤ cfg.failure_threshold) (hs1 : 1 ≤ cfg.success_threshold)
    (hfw : cfg.failure_threshold < U32) (hsw : cfg.success_threshold < U32)
    (cb : CircuitBreaker) (ih : CBInv cfg cb) (e : CBEvent) :
    CBInv cfg (cb.step cfg e) := by
  obtain ⟨i1, i2, i3⟩ := ih
  rcases cb with ⟨st, fc, sc, lft, tot, fl⟩
  cases e with
  | success =>
      cases st with
      | Closed =>
          refine ⟨fun h => ?_, fun h => ?_, fun h => ?_⟩ <;>
            simp [CircuitBreaker.step, CircuitBreaker.record_success] at h ⊢ <;> omega
      | Open =>
          refine ⟨fun h => ?_, fun h => ?_, fun h => ?_⟩ <;>
            simp [CircuitBreaker.step, CircuitBreaker.record_success,
              CircuitBreaker.transition_to_closed] at h ⊢ <;> omega
      | HalfOpen =>
          have hsc : sc < cfg.success_threshold := i3 rfl
          have hmod : (sc + 1) % U32 = sc + 1 := Nat.mod_eq_of_lt (by omega)
          simp only [CircuitBreaker.step, CircuitBreaker.record_success, hmod]
          split_ifs with hth
          · refine ⟨fun h => ?_, fun h => ?_, fun h => ?_⟩ <;>
              simp [CircuitBreaker.transition_to_closed] at h ⊢ <;> omega
          · refine ⟨fun h => ?_, fun h => ?_, fun h => ?_⟩ <;>
              simp at h ⊢ <;> omega
  | failure now =>
      cases st with
      | Closed =>
          have hfc : fc < cfg.failure_threshold := i1 rfl
          have hmod : (fc + 1) % U32 = fc + 1 := Nat.mod_eq_of_lt (by omega)
          simp only [CircuitBreaker.step, CircuitBreaker.record_failure, hmod]
          split_ifs with hth
          · refine ⟨fun h => ?_, fun h => ?_, fun h => ?_⟩ <;>
              simp [CircuitBreaker.transition_to_open] at h ⊢
          · refine ⟨fun h => ?_, fun h => ?_, fun h => ?_⟩ <;>
              simp at h ⊢ <;> omega
      | Open =>
          refine ⟨fun h => ?_, fun h => ?_, fun h => ?_⟩ <;>
            simp [CircuitBreaker.step, CircuitBreaker.record_failure] at h ⊢
      | HalfOpen =>
          refine ⟨fun h => ?_, fun h => ?_, fun h => ?_⟩ <;>
            simp [CircuitBreaker.step, CircuitBreaker.record_failure,
              CircuitBreaker.transition_to_open] at h ⊢
  | permit now =>
      cases st with
      | Closed =>
          have hfc : fc < cfg.failure_threshold := i1 rfl
          refine ⟨fun h => ?_, fun h => ?_, fun h => ?_⟩ <;>
            simp [CircuitBreaker.step, CircuitBreaker.call_permitted] at h ⊢ <;> omega
      | Open =>
          cases lft with
          | none => exact absurd rfl (i2 rfl)
          | some t =>
              simp only [CircuitBreaker.step, CircuitBreaker.call_permitted]
              split_ifs with ht
              · refine ⟨fun h => ?_, fun h => ?_, fun h => ?_⟩ <;>
                  simp [CircuitBreaker.transition_to_half_open] at h ⊢ <;> omega
              · refine ⟨fun h => ?_, fun h => ?_, fun h => ?_⟩ <;>
                  simp at h ⊢ <;> omega
      | HalfOpen =>
          have hsc : sc < cfg.success_threshold := i3 rfl
          refine ⟨fun h => ?_, fun h => ?_, fun h => ?_⟩ <;>
            simp [CircuitBreaker.step, CircuitBreaker.call_permitted] at h ⊢ <;> omega

theorem cbInv_reachable (cfg : CircuitBreakerConfig)
    (hf1 : 1 ≤ cfg.failure_threshold) (hs1 : 1 ≤ cfg.success_threshold)
    (hfw : cfg.failure_threshold < U32) (hsw : cfg.success_threshold < U32)
    (cb : CircuitBreaker) (h : CBReachable cfg cb) : CBInv cfg cb := by
  induction h with
  | init => exact cbInv_new cfg hf1 hs1
  | step e _ ih => exact cbInv_step cfg hf1 hs1 hfw hsw _ ih e

/-- The behaviour that claim C2 demands of the breaker in each state, stated
of one breaker value `cb`: Closed-success resets the streak, the threshold-th
consecutive Closed-failure opens it, Open permits exactly when the cool-down
has elapsed and then atomically moves to HalfOpen with cleared counters,
HalfOpen permits everything, closes at the threshold-th cumulative success,
and reopens on any failure. -/
def CBMachineSpec (cfg : CircuitBreakerConfig) (cb : CircuitBreaker) : Prop :=
  (cb.state = .Closed →
      (cb.record_success cfg).state = .Closed ∧
      (cb.record_success cfg).failure_count = 0) ∧
  (∀ now, cb.state = .Closed →
      ((cb.record_failure cfg now).state = .Open ↔
          cb.failure_count + 1 = cfg.failure_threshold) ∧
      (cb.failure_count + 1 < cfg.failure_threshold →
          (cb.record_failure cfg now).state = .Closed ∧
          (cb.record_failure cfg now).failure_count = cb.failure_count + 1) ∧
      (cb.failure_count + 1 = cfg.failure_threshold →
          (cb.record_failure cfg now).last_failure_time = some now ∧
          (cb.record_failure cfg now).success_count = 0)) ∧
  (cb.state = .Open → cb.last_failure_time ≠ none) ∧
  (∀ now t, cb.state = .Open → cb.last_failure_time = some t →
      (now - t < cfg.timeout →
          cb.call_permitted cfg now = (false, cb)) ∧
      (cfg.timeout ≤ now - t →
          (cb.call_permitted cfg now).1 = true ∧
          (cb.call_permitted cfg now).2.state = .HalfOpen ∧
          (cb.call_permitted cfg now).2.failure_count = 0 ∧
          (cb.call_permitted cfg now).2.success_count = 0)) ∧
  (∀ now, cb.state = .HalfOpen → cb.call_permitted cfg now = (true, cb)) ∧
  (cb.state = .HalfOpen →
      (cb.success_count + 1 = cfg.success_threshold →
          (cb.record_success cfg).state = .Closed ∧
          (cb.record_success cfg).failure_count = 0 ∧
          (cb.record_success cfg).success_count = 0 ∧
          (cb.record_success cfg).last_failure_time = none) ∧
      (cb.success_count + 1 < cfg.success_threshold →
          (cb.record_success cfg).state = .HalfOpen ∧
          (cb.record_success cfg).success_count = cb.success_count + 1)) ∧
  (∀ now, cb.state = .HalfOpen →
      (cb.record_failure cfg now).state = .Open ∧
      (cb.record_failure cfg now).last_failure_time = some now ∧
      (cb.record_failure cfg now).success_count = 0)

/-- Claim C2: the circuit breaker, started in Closed, satisfies the spec
state machine for every sequence of record_success, record_failure and
call_permitted events: Closed stays Closed (resetting the failure streak on
success) until failure_threshold consecutive failures open it; in Open,
call_permitted rejects until the timeout has elapsed since the last failure
time, then transitions to HalfOpen with both counters reset and permits the
call; in HalfOpen every call is permitted, success_threshold cumulative
successes close the breaker clearing the counters and the failure time, and
any single failure reopens it. -/
theorem circuit_breaker_state_machine (cfg : CircuitBreakerConfig)
    (cb : CircuitBreaker)
    (hf1 : 1 ≤ cfg.failure_threshold) (hs1 : 1 ≤ cfg.success_threshold)
    (hfw : cfg.failure_threshold < U32) (hsw : cfg.success_threshold < U32)
    (hreach : CBReachable cfg cb) :
    CircuitBreaker.new.state = .Closed ∧ CBMachineSpec cfg cb := by
  obtain ⟨i1, i2, i3⟩ := cbInv_reachable cfg hf1 hs1 hfw hsw cb hreach
  refine ⟨rfl, ?_⟩
  rcases cb with ⟨st, fc, sc, lft, tot, fl⟩
  cases st with
  | Closed =>
      have hfc : fc < cfg.failure_threshold := i1 rfl
      have hmod : (fc + 1) % U32 = fc + 1 := Nat.mod_eq_of_lt (by omega)
      refine ⟨fun _ => ?_, fun now _ => ?_, fun h => ?_, fun now t h _ => ?_,
        fun now h => ?_, fun h => ?_, fun now h => ?_⟩
      · constructor <;> simp [CircuitBreaker.record_success]
      · simp only [CircuitBreaker.record_failure, hmod]
        split_ifs with hth
        · refine ⟨?_, fun hlt => ?_, fun _ => ?_⟩
          · simp [CircuitBreaker.transition_to_open]
            omega
          · omega
          · simp [CircuitBreaker.transition_to_open]
        · refine ⟨?_, fun hlt => ?_, fun heq => ?_⟩
          · simp
            omega
          · simp
          · omega
      · simp at h
      · simp at h
      · simp at h
      · simp at h
      · simp at h
  | Open =>
      have hlft : lft ≠ none := i2 rfl
      refine ⟨fun h => ?_, fun now h => ?_, fun _ => hlft, fun now t _ ht => ?_,
        fun now h => ?_, fun h => ?_, fun now h => ?_⟩
      · simp at h
      · simp at h
      · cases ht
        refine ⟨fun hlt => ?_, fun hge => ?_⟩
        · simp only [CircuitBreaker.call_permitted]
          rw [if_neg (by omega)]
        · simp only [CircuitBreaker.call_permitted]
          rw [if_pos hge]
          simp [CircuitBreaker.transition_to_half_open]
      · simp at h
      · simp at h
      · simp at h
  | HalfOpen =>
      have hsc : sc < cfg.success_threshold := i3 rfl
      have hmod : (sc + 1) % U32 = sc + 1 := Nat.mod_eq_of_lt (by omega)
      refine ⟨fun h => ?_, fun now h => ?_, fun h => ?_, fun now t h _ => ?_,
        fun now _ => ?_, fun _ => ?_, fun now _ => ?_⟩
      · simp at h
      · simp at h
      · simp at h
      · simp at h
      · simp [CircuitBreaker.call_permitted]
      · simp only [CircuitBreaker.record_success, hmod]
        refine ⟨fun heq => ?_, fun hlt => ?_⟩
        · rw [if_pos (by omega)]
          simp [CircuitBreaker.transition_to_closed]
        · rw [if_neg (by omega)]
          simp
      · simp [CircuitBreaker.record_failure, CircuitBreaker.transition_to_open]

/-- Witness for C2: the hypotheses of `circuit_breaker_state_machine` hold at
the concrete configuration (2, 2, 60) and the initial breaker. -/
theorem circuit_breaker_state_machine_witness :
    CircuitBreaker.new.state = .Closed ∧
      CBMachineSpec ⟨2, 2, 60⟩ CircuitBreaker.new :=
  circuit_breaker_state_machine ⟨2, 2, 60⟩ CircuitBreaker.new
    (by decide) (by decide) (by norm_num [U32]) (by norm_num [U32])
    CBReachable.init

/-! ## Backend (src/proxy/backend.rs) -/

/-- Rust `HealthStatus` in backend.rs. -/
inductive HealthStatus
  | Healthy
  | Unhealthy
  | Unknown
  deriving Repr, DecidableEq, BEq

/-- The slice of `url::Url` that `Backend::new` consumes: `host_str()` and
`port_or_known_default()`. -/
structure Url where
  host_str : Option String
  port_or_known_default : Option Nat
  deriving Repr, DecidableEq

/-- A snapshot of one `Backend` (backend.rs): immutable identity plus the
runtime atomics and health fields, with timestamps abstract. -/
structure Backend where
  id : String
  url : Url
  weight : Nat
  max_connections : Nat
  active_connections : Nat
  total_requests : Nat
  failed_requests : Nat
  health_status : HealthStatus
  last_health_check : Option Nat
  consecutive_failures : Nat
  consecutive_successes : Nat
  deriving Repr, DecidableEq

/-- Rust `Backend::new`: id derived as host:port with the source fallbacks
(`unwrap_or("unknown")`, `unwrap_or(80)`); counters zero, health Unknown. -/
def Backend.new (url : Url) (weight max_connections : Nat) : Backend :=
  { id := url.host_str.getD "unknown" ++ ":" ++
      toString (url.port_or_known_default.getD 80)
    url := url
    weight := weight
    max_connections := max_connections
    active_connections := 0
    total_requests := 0
    failed_requests := 0
    health_status := .Unknown
    last_health_check := none
    consecutive_failures := 0
    consecutive_successes := 0 }

/-- Rust `Backend::increment_connections`: the CAS loop, observed atomically,
increments iff strictly under the cap and reports whether it did. -/
def Backend.increment_connections (b : Backend) : Bool × Backend :=
  if b.active_connections < b.max_connections then
    (true, { b with active_connections := b.active_connections + 1 })
  else
    (false, b)

/-- Rust `Backend::decrement_connections`: `fetch_sub(1)` on an `AtomicUsize`,
which wraps at `2^64` when the counter is zero. -/
def Backend.decrement_connections (b : Backend) : Backend :=
  { b with active_connections := (b.active_connections + (USIZE - 1)) % USIZE }

/-- Rust `Backend::record_request`: bumps `total_requests`, and also
`failed_requests` when not a success. -/
def Backend.record_request (b : Backend) (success : Bool) : Backend :=
  { b with
    total_requests := b.total_requests + 1
    failed_requests := b.failed_requests + (if success then 0 else 1) }

/-- Rust `Backend::is_healthy`: the snapshot status equals Healthy. -/
def Backend.is_healthy (b : Backend) : Bool :=
  b.health_status == HealthStatus.Healthy

/-- Rust `Backend::update_health`: sets the status from the probe result and
updates the mutually-resetting streaks; stamps `last_health_check` now. -/
def Backend.update_health (b : Backend) (healthy : Bool) (now : Nat) : Backend :=
  if healthy then
    { b with
      health_status := .Healthy
      consecutive_failures := 0
      consecutive_successes := b.consecutive_successes + 1
      last_health_check := some now }
  else
    { b with
      health_status := .Unhealthy
      consecutive_successes := 0
      consecutive_failures := b.consecutive_failures + 1
      last_health_check := some now }

/-! ## Load balancer (src/load_balancer/round_robin.rs, mod.rs) -/

/-- Rust `RoundRobinBalancer`: one wrapping `AtomicUsize` counter. -/
structure RoundRobinBalancer where
  counter : Nat
  deriving Repr, DecidableEq

/-- Rust `RoundRobinBalancer::new`: counter starts at zero. -/
def RoundRobinBalancer.new : RoundRobinBalancer := ⟨0⟩

/-- Rust `RoundRobinBalancer::select_backend`: `None` on an empty slice, else the
element at `counter % len` where `fetch_add(1)` returns the pre-increment
counter and bumps it with wraparound at `2^64`. -/
def RoundRobinBalancer.select_backend (rr : RoundRobinBalancer)
    (backends : List Backend) : Option Backend × RoundRobinBalancer :=
  if backends.isEmpty then
    (none, rr)
  else
    (backends[rr.counter % backends.length]?, ⟨(rr.counter + 1) % USIZE⟩)

/-- The config-level `LoadBalancerAlgorithm` enum (src/config/mod.rs). -/
inductive LoadBalancerAlgorithm
  | RoundRobin
  | LeastConnections
  | Weighted
  | Random
  | IpHash
  deriving Repr, DecidableEq

/-- Rust `create_load_balancer` (src/load_balancer/mod.rs): every arm of the
match returns `RoundRobinBalancer::new()` — the non-round-robin strategies
are TODO stubs in the source. -/
def create_load_balancer : LoadBalancerAlgorithm → RoundRobinBalancer
  | .RoundRobin => RoundRobinBalancer.new
  | .LeastConnections => RoundRobinBalancer.new
  | .Weighted => RoundRobinBalancer.new
  | .Random => RoundRobinBalancer.new
  | .IpHash => RoundRobinBalancer.new

/-- The k-th selection over successive `select_backend` calls against an
unchanged candidate list. -/
def rrStream (rr : RoundRobinBalancer) (backends : List Backend) : Nat → Option Backend
  | 0 => (rr.select_backend backends).1
  | k + 1 => rrStream (rr.select_backend backends).2 backends k

theorem rrStream_eq (l : List Backend) (hne : l ≠ []) :
    ∀ (k : Nat) (rr : RoundRobinBalancer), rr.counter + k < USIZE →
      rrStream rr l k = l[(rr.counter + k) % l.length]? := by
  intro k
  induction k with
  | zero =>
      intro rr _
      simp [rrStream, RoundRobinBalancer.select_backend, hne]
  | succ k ih =>
      intro rr hlt
      have hc : (rr.counter + 1) % USIZE = rr.counter + 1 :=
        Nat.mod_eq_of_lt (by omega)
      have step2 : (rr.select_backend l).2 = ⟨rr.counter + 1⟩ := by
        simp [RoundRobinBalancer.select_backend, hne, hc]
      have hih := ih ⟨rr.counter + 1⟩
        (by change rr.counter + 1 + k < USIZE; omega)
      have hproj : (⟨rr.counter + 1⟩ : RoundRobinBalancer).counter = rr.counter + 1 := rfl
      rw [hproj] at hih
      have harg : rr.counter + 1 + k = rr.counter + (k + 1) := by omega
      rw [harg] at hih
      rw [show rrStream rr l (k + 1) = rrStream (rr.select_backend l).2 l k from rfl,
        step2]
      exact hih

/-- Claim C5: round-robin select returns none iff the candidate list is
empty; on a non-empty list of length n it returns the element at index
(counter mod n) and bumps the counter by one (with the u64 wraparound of the
atomic); it only returns members of the list; and over successive calls on
an unchanged list the selections follow the counter cyclically. -/
theorem round_robin_select_spec (rr : RoundRobinBalancer) (l : List Backend) :
    ((rr.select_backend l).1 = none ↔ l = []) ∧
    (l ≠ [] →
      (rr.select_backend l).1 = l[rr.counter % l.length]? ∧
      (rr.select_backend l).2.counter = (rr.counter + 1) % USIZE) ∧
    (∀ b, (rr.select_backend l).1 = some b → b ∈ l) ∧
    (∀ k, l ≠ [] → rr.counter + k < USIZE →
      rrStream rr l k = l[(rr.counter + k) % l.length]?) := by
  refine ⟨?_, fun hne => ?_, fun b hb => ?_, fun k hne hk => rrStream_eq l hne k rr hk⟩
  · constructor
    · intro h
      by_contra hne
      have hlen : 0 < l.length := List.length_pos.mpr hne
      have hidx : rr.counter % l.length < l.length := Nat.mod_lt _ hlen
      simp [RoundRobinBalancer.select_backend, hne,
        List.getElem?_eq_getElem hidx] at h
    · intro h
      simp [RoundRobinBalancer.select_backend, h]
  · constructor <;> simp [RoundRobinBalancer.select_backend, hne]
  · by_cases hne : l = []
    · simp [RoundRobinBalancer.select_backend, hne] at hb
    · simp only [RoundRobinBalancer.select_backend, List.isEmpty_eq_true] at hb
      rw [if_neg hne] at hb
      exact List.getElem?_mem hb

/-- A concrete two-element candidate list reused by several witnesses. -/
def demoBackends : List Backend :=
  [Backend.new ⟨some "a", some 80⟩ 1 10, Backend.new ⟨some "b", some 80⟩ 1 10]

/-- Witness for C5: the selection property applied at a fresh balancer and
the concrete list `demoBackends`, hypotheses discharged. -/
theorem round_robin_select_spec_witness :
    (RoundRobinBalancer.new.select_backend demoBackends).1 =
        demoBackends[RoundRobinBalancer.new.counter % demoBackends.length]? ∧
    rrStream RoundRobinBalancer.new demoBackends 3 =
        demoBackends[(RoundRobinBalancer.new.counter + 3) % demoBackends.length]? :=
  ⟨((round_robin_select_spec RoundRobinBalancer.new demoBackends).2.1
      (List.cons_ne_nil _ _)).1,
   (round_robin_select_spec RoundRobinBalancer.new demoBackends).2.2.2 3
      (List.cons_ne_nil _ _) (by decide)⟩

/-- A backend snapshot with five active connections, for the C6
counterexample. -/
def busyBackend : Backend :=
  { Backend.new ⟨some "busy", some 80⟩ 1 100 with active_connections := 5 }

/-- A backend snapshot with zero active connections, for the C6
counterexample. -/
def idleBackend : Backend :=
  { Backend.new ⟨some "idle", some 80⟩ 1 100 with active_connections := 0 }

/-- Claim C6 counterexample: with algorithm least_connections the factory
yields the round-robin stub, which on the candidate list
[busyBackend, idleBackend] selects busyBackend (5 active connections) even
though idleBackend has 0 — so the selection does not minimize
active_connections. -/
theorem least_connections_counterexample :
    ((create_load_balancer .LeastConnections).select_backend
        [busyBackend, idleBackend]).1 = some busyBackend ∧
    idleBackend ∈ [busyBackend, idleBackend] ∧
    idleBackend.active_connections < busyBackend.active_connections := by
  refine ⟨?_, by simp, by decide⟩
  simp [create_load_balancer, RoundRobinBalancer.new,
    RoundRobinBalancer.select_backend]

/-- Claim C6 amended: the least_connections arm of `create_load_balancer` is
a TODO stub returning the round-robin balancer, so for every non-empty
candidate list the selection is the element at counter mod n (counter
starting at 0), irrespective of active_connections. -/
theorem least_connections_is_round_robin_stub (l : List Backend) (hne : l ≠ []) :
    create_load_balancer .LeastConnections = RoundRobinBalancer.new ∧
    ((create_load_balancer .LeastConnections).select_backend l).1 =
      l[0 % l.length]? := by
  refine ⟨rfl, ?_⟩
  simp [create_load_balancer, RoundRobinBalancer.new,
    RoundRobinBalancer.select_backend, hne]

/-- Witness for C6 amended: instantiated at the concrete candidate list
[busyBackend, idleBackend]. -/
theorem least_connections_is_round_robin_stub_witness :
    create_load_balancer .LeastConnections = RoundRobinBalancer.new ∧
    ((create_load_balancer .LeastConnections).select_backend
        [busyBackend, idleBackend]).1 =
      [busyBackend, idleBackend][0 % ([busyBackend, idleBackend] : List Backend).length]? :=
  least_connections_is_round_robin_stub [busyBackend, idleBackend]
    (List.cons_ne_nil _ _)

/-! ## Connection-cap traces (claim C3) -/

/-- The two connection-slot operations on one backend. -/
inductive ConnOp
  | acquire
  | release
  deriving Repr, DecidableEq

/-- One admit/release applied to a backend through the source methods. -/
def connStep (b : Backend) : ConnOp → Backend
  | .acquire => b.increment_connections.2
  | .release => b.decrement_connections

/-- The successive backend states along a trace of admits and releases. -/
def connTrace (b : Backend) : List ConnOp → List Backend
  | [] => []
  | op :: ops => connStep b op :: connTrace (connStep b op) ops

/-- The idealized (unbounded-integer) count evolution: an admit increments
iff strictly under the cap, a release subtracts one. -/
def idealStep (cap k : Nat) : ConnOp → Nat
  | .acquire => if k < cap then k + 1 else k
  | .release => k - 1

/-- The idealized counts along a trace. -/
def idealCounts (cap k : Nat) : List ConnOp → List Nat
  | [] => []
  | op :: ops => idealStep cap k op :: idealCounts cap (idealStep cap k op) ops

/-- The hypothesis of claim C3 on a trace: every release is preceded by a
matching successful admit, i.e. the ideal count of outstanding successful
admits is positive at each release. -/
def releasesMatched (cap : Nat) : Nat → List ConnOp → Bool
  | _, [] => true
  | k, .acquire :: ops => releasesMatched cap (if k < cap then k + 1 else k) ops
  | k, .release :: ops => decide (0 < k) && releasesMatched cap (k - 1) ops

theorem connTrace_ideal (cap : Nat) (hw : cap < USIZE) :
    ∀ (ops : List ConnOp) (b : Backend), b.max_connections = cap →
      b.active_connections ≤ cap →
      releasesMatched cap b.active_connections ops = true →
      (connTrace b ops).map Backend.active_connections =
          idealCounts cap b.active_connections ops ∧
      ∀ c ∈ idealCounts cap b.active_connections ops, c ≤ cap := by
  intro ops
  induction ops with
  | nil => intro b _ _ _; simp [connTrace, idealCounts]
  | cons op ops ih =>
      intro b hbm hble hm
      cases op with
      | acquire =>
          by_cases hlt : b.active_connections < cap
          · have hstep : connStep b .acquire =
                { b with active_connections := b.active_connections + 1 } := by
              simp [connStep, Backend.increment_connections, hbm, hlt]
            have hm2 : releasesMatched cap (b.active_connections + 1) ops = true := by
              simpa [releasesMatched, hlt] using hm
            have := ih { b with active_connections := b.active_connections + 1 }
              (by simpa using hbm) (by simpa using hlt) (by simpa using hm2)
            simp only [connTrace, idealCounts, idealStep, hstep, if_pos hlt,
              List.map_cons, List.mem_cons]
            refine ⟨by rw [this.1], fun c hc => ?_⟩
            rcases hc with hc | hc
            · omega
            · exact this.2 c hc
          · have hstep : connStep b .acquire = b := by
              simp [connStep, Backend.increment_connections, hbm, hlt]
            have hm2 : releasesMatched cap b.active_connections ops = true := by
              simpa [releasesMatched, hlt] using hm
            have := ih b hbm hble hm2
            simp only [connTrace, idealCounts, idealStep, hstep, if_neg hlt,
              List.map_cons, List.mem_cons]
            refine ⟨by rw [this.1], fun c hc => ?_⟩
            rcases hc with hc | hc
            · omega
            · exact this.2 c hc
      | release =>
          have hmm := hm
          simp only [releasesMatched, Bool.and_eq_true, decide_eq_true_eq] at hmm
          obtain ⟨hpos, hm2⟩ := hmm
          have hsub : (b.active_connections + (USIZE - 1)) % USIZE =
              b.active_connections - 1 := by
            have h1 : b.active_connections + (USIZE - 1) =
                USIZE + (b.active_connections - 1) := by omega
            rw [h1, Nat.add_mod_left, Nat.mod_eq_of_lt (by omega)]
          have hstep : connStep b .release =
              { b with active_connections := b.active_connections - 1 } := by
            simp [connStep, Backend.decrement_connections, hsub]
          have := ih { b with active_connections := b.active_connections - 1 }
            (by simpa using hbm) (by simp; omega) (by simpa using hm2)
          simp only [connTrace, idealCounts, idealStep, hstep,
            List.map_cons, List.mem_cons]
          refine ⟨by rw [this.1], fun c hc => ?_⟩
          rcases hc with hc | hc
          · omega
          · exact this.2 c hc

/-- Claim C3: admit (increment_connections) returns true and adds exactly
one precisely when active_connections < max_connections held before the
call, else returns false and leaves the count unchanged; and along every
trace of admits and releases where each release is preceded by a matching
successful admit, starting from an idle backend, the count follows the
ideal evolution exactly (so it never wraps below zero) and never exceeds
max_connections. -/
theorem connection_cap_invariant (b : Backend) (ops : List ConnOp)
    (h0 : b.active_connections = 0) (hw : b.max_connections < USIZE)
    (hm : releasesMatched b.max_connections 0 ops = true) :
    (∀ c : Backend,
      (c.increment_connections.1 = true ↔
          c.active_connections < c.max_connections) ∧
      (c.increment_connections.1 = true →
          c.increment_connections.2.active_connections =
            c.active_connections + 1) ∧
      (c.increment_connections.1 = false → c.increment_connections.2 = c)) ∧
    (connTrace b ops).map Backend.active_connections =
        idealCounts b.max_connections 0 ops ∧
    (∀ c ∈ idealCounts b.max_connections 0 ops, c ≤ b.max_connections) := by
  have hmain := connTrace_ideal b.max_connections hw ops b rfl (by omega)
    (by rw [h0]; exact hm)
  rw [h0] at hmain
  refine ⟨fun c => ?_, hmain.1, hmain.2⟩
  by_cases hlt : c.active_connections < c.max_connections <;>
    simp [Backend.increment_connections, hlt]

/-- Witness for C3: a fresh backend with cap 2 and the concrete trace
admit, admit, release, admit. -/
theorem connection_cap_invariant_witness :
    (∀ c : Backend,
      (c.increment_connections.1 = true ↔
          c.active_connections < c.max_connections) ∧
      (c.increment_connections.1 = true →
          c.increment_connections.2.active_connections =
            c.active_connections + 1) ∧
      (c.increment_connections.1 = false → c.increment_connections.2 = c)) ∧
    (connTrace (Backend.new ⟨some "w", some 80⟩ 1 2)
        [.acquire, .acquire, .release, .acquire]).map Backend.active_connections =
      idealCounts (Backend.new ⟨some "w", some 80⟩ 1 2).max_connections 0
        [.acquire, .acquire, .release, .acquire] ∧
    (∀ c ∈ idealCounts (Backend.new ⟨some "w", some 80⟩ 1 2).max_connections 0
        [.acquire, .acquire, .release, .acquire],
      c ≤ (Backend.new ⟨some "w", some 80⟩ 1 2).max_connections) :=
  connection_cap_invariant (Backend.new ⟨some "w", some 80⟩ 1 2)
    [.acquire, .acquire, .release, .acquire] rfl (by decide) (by decide)

/-! ## Retry strategy (src/retry/strategy.rs) -/

/-- Rust `RetryDecision` in strategy.rs. -/
inductive RetryDecision
  | Retry
  | NoRetry
  deriving Repr, DecidableEq

/-- The loop of `RetryStrategy::execute_with_decision`.  The operation is
given as `f : Nat → Except E T`, the outcome of each 1-based invocation.
`fuel` is the number of retries still allowed, i.e. max_attempts - attempt;
the loop returns the current error once the attempt counter reaches
max_attempts (fuel 0), which also subsumes the NoRetry consultation on the
final attempt since both return that same error.  The result is paired with
the index of the last invocation performed. -/
def execGo {E T : Type} (f : Nat → Except E T) (policy : E → RetryDecision) :
    Nat → Nat → Except E T × Nat
  | 0, attempt =>
      match f attempt with
      | .ok r => (.ok r, attempt)
      | .error e => (.error e, attempt)
  | fuel + 1, attempt =>
      match f attempt with
      | .ok r => (.ok r, attempt)
      | .error e =>
          match policy e with
          | .NoRetry => (.error e, attempt)
          | .Retry => execGo f policy fuel (attempt + 1)

/-- Rust `RetryStrategy::execute_with_decision`: the attempt counter starts at 1
(the code increments its 0 start before the first call). -/
def execute_with_decision {E T : Type} (max_attempts : Nat)
    (f : Nat → Except E T) (policy : E → RetryDecision) : Except E T × Nat :=
  execGo f policy (max_attempts - 1) 1

theorem execGo_spec {E T : Type} (f : Nat → Except E T)
    (policy : E → RetryDecision) :
    ∀ (fuel attempt : Nat),
      attempt ≤ (execGo f policy fuel attempt).2 ∧
      (execGo f policy fuel attempt).2 ≤ attempt + fuel ∧
      (execGo f policy fuel attempt).1 = f (execGo f policy fuel attempt).2 ∧
      (∀ i, attempt ≤ i → i < (execGo f policy fuel attempt).2 →
        ∃ e, f i = .error e ∧ policy e = .Retry) ∧
      (∀ e, f (execGo f policy fuel attempt).2 = .error e →
        policy e = .Retry → (execGo f policy fuel attempt).2 = attempt + fuel) := by
  intro fuel
  induction fuel with
  | zero =>
      intro attempt
      have hval : execGo f policy 0 attempt = (f attempt, attempt) := by
        cases hfa : f attempt <;> simp [execGo, hfa]
      rw [hval]
      refine ⟨Nat.le_refl _, Nat.le_refl _, rfl,
        fun i hi1 hi2 => absurd hi2 (by omega), fun e2 _ _ => rfl⟩
  | succ fuel ih =>
      intro attempt
      cases hfa : f attempt with
      | ok r =>
          have hval : execGo f policy (fuel + 1) attempt = (.ok r, attempt) := by
            simp [execGo, hfa]
          rw [hval]
          refine ⟨Nat.le_refl _, by omega, by rw [hfa],
            fun i hi1 hi2 => absurd hi2 (by omega), fun e2 he2 _ => ?_⟩
          rw [hfa] at he2
          cases he2
      | error e =>
          cases hpe : policy e with
          | NoRetry =>
              have hval : execGo f policy (fuel + 1) attempt = (.error e, attempt) := by
                simp [execGo, hfa, hpe]
              rw [hval]
              refine ⟨Nat.le_refl _, by omega, by rw [hfa],
                fun i hi1 hi2 => absurd hi2 (by omega), fun e2 he2 hp2 => ?_⟩
              rw [hfa] at he2
              cases he2
              rw [hpe] at hp2
              cases hp2
          | Retry =>
              have heq : execGo f policy (fuel + 1) attempt =
                  execGo f policy fuel (attempt + 1) := by
                simp [execGo, hfa, hpe]
              obtain ⟨ih1, ih2, ih3, ih4, ih5⟩ := ih (attempt + 1)
              rw [heq]
              refine ⟨by omega, by omega, ih3, fun i hi1 hi2 => ?_,
                fun e2 he2 hp2 => by rw [ih5 e2 he2 hp2]; omega⟩
              rcases Nat.eq_or_lt_of_le hi1 with hieq | hilt
              · exact ⟨e, by rw [hieq] at hfa; exact hfa, hpe⟩
              · exact ih4 i hilt hi2

/-- Claim C4: for every operation, retry policy and max_attempts ≥ 1,
execute_with_decision performs between 1 and max_attempts invocations; its
result is exactly the outcome of the last invocation performed (so an Ok is
returned as soon as an invocation succeeds, and a NoRetry error is returned
with no further invocations); every invocation before the last produced a
retryable error; and if the last outcome is a retryable error then exactly
max_attempts invocations were performed. -/
theorem retry_execute_with_decision_spec {E T : Type} (max_attempts : Nat)
    (f : Nat → Except E T) (policy : E → RetryDecision)
    (hmax : 1 ≤ max_attempts) :
    1 ≤ (execute_with_decision max_attempts f policy).2 ∧
    (execute_with_decision max_attempts f policy).2 ≤ max_attempts ∧
    (execute_with_decision max_attempts f policy).1 =
      f (execute_with_decision max_attempts f policy).2 ∧
    (∀ i, 1 ≤ i → i < (execute_with_decision max_attempts f policy).2 →
      ∃ e, f i = .error e ∧ policy e = .Retry) ∧
    (∀ e, f (execute_with_decision max_attempts f policy).2 = .error e →
      policy e = .Retry →
      (execute_with_decision max_attempts f policy).2 = max_attempts) := by
  obtain ⟨h1, h2, h3, h4, h5⟩ := execGo_spec f policy (max_attempts - 1) 1
  unfold execute_with_decision
  exact ⟨h1, by omega, h3, h4, fun e he hp => by rw [h5 e he hp]; omega⟩

/-- Witness for C4: a concrete operation failing retryably on attempts 1
and 2 and succeeding on attempt 3, with max_attempts 3. -/
theorem retry_execute_with_decision_spec_witness :
    1 ≤ (execute_with_decision 3
          (fun i => if i < 3 then Except.error "tmp" else Except.ok 42)
          (fun _ => RetryDecision.Retry)).2 ∧
    (execute_with_decision 3
          (fun i => if i < 3 then Except.error "tmp" else Except.ok 42)
          (fun _ => RetryDecision.Retry)).2 ≤ 3 ∧
    (execute_with_decision 3
          (fun i => if i < 3 then Except.error "tmp" else Except.ok 42)
          (fun _ => RetryDecision.Retry)).1 =
      (fun i => if i < 3 then Except.error "tmp" else Except.ok 42)
        (execute_with_decision 3
          (fun i => if i < 3 then Except.error "tmp" else Except.ok 42)
          (fun _ => RetryDecision.Retry)).2 ∧
    (∀ i, 1 ≤ i →
      i < (execute_with_decision 3
            (fun i => if i < 3 then Except.error "tmp" else Except.ok 42)
            (fun _ => RetryDecision.Retry)).2 →
      ∃ e, (fun i => if i < 3 then Except.error "tmp" else Except.ok 42) i =
          .error e ∧ (fun _ => RetryDecision.Retry) e = .Retry) ∧
    (∀ e, (fun i => if i < 3 then Except.error "tmp" else Except.ok 42)
          (execute_with_decision 3
            (fun i => if i < 3 then Except.error "tmp" else Except.ok 42)
            (fun _ => RetryDecision.Retry)).2 = .error e →
      (fun _ => RetryDecision.Retry) e = .Retry →
      (execute_with_decision 3
          (fun i => if i < 3 then Except.error "tmp" else Except.ok 42)
          (fun _ => RetryDecision.Retry)).2 = 3) :=
  retry_execute_with_decision_spec 3
    (fun i => if i < 3 then Except.error "tmp" else Except.ok 42)
    (fun _ => RetryDecision.Retry) (by decide)

/-- Rust `2u64.saturating_pow(e)`: saturates at `u64::MAX`. -/
def satPow2 (e : Nat) : Nat := min (2 ^ e) (USIZE - 1)

/-- Rust `u64::saturating_mul`: saturates at `u64::MAX`. -/
def satMul (a b : Nat) : Nat := min (a * b) (USIZE - 1)

/-- Rust `RetryStrategy::calculate_backoff` for 1-based `attempt`, with the
uniform random factor `rand::random::<f64>() ∈ [0, 1)` passed explicitly as
a rational `r` and the f64 products modelled as exact rational arithmetic:
exponential = base·2^(attempt-1) with saturating u64 ops, capped at the
configured max, plus jitter = the truncation of capped·r·0.25; the final
u64 addition wraps at 2^64. -/
def calculate_backoff (base maxMs attempt : Nat) (r : ℚ) : Nat :=
  let exponential := satMul base (satPow2 (attempt - 1))
  let capped := min exponential maxMs
  let jitter := (⌊(capped : ℚ) * r * (1 / 4)⌋).toNat
  (capped + jitter) % USIZE

theorem capped_eq_min (base maxMs e : Nat) (hm : maxMs < USIZE) :
    min (satMul base (satPow2 e)) maxMs = min (base * 2 ^ e) maxMs := by
  unfold satMul satPow2
  rcases Nat.lt_or_ge (2 ^ e) USIZE with hp | hp
  · rw [show min (2 ^ e) (USIZE - 1) = 2 ^ e from min_eq_left (by omega)]
    rcases Nat.lt_or_ge (base * 2 ^ e) USIZE with hq | hq
    · rw [show min (base * 2 ^ e) (USIZE - 1) = base * 2 ^ e from
        min_eq_left (by omega)]
    · rw [show min (base * 2 ^ e) (USIZE - 1) = USIZE - 1 from
          min_eq_right (by omega),
        show min (USIZE - 1) maxMs = maxMs from min_eq_right (by omega),
        show min (base * 2 ^ e) maxMs = maxMs from min_eq_right (by omega)]
  · rw [show min (2 ^ e) (USIZE - 1) = USIZE - 1 from min_eq_right (by omega)]
    rcases Nat.eq_zero_or_pos base with hb0 | hb1
    · subst hb0
      simp
    · have hY : USIZE - 1 ≤ base * (USIZE - 1) := Nat.le_mul_of_pos_left _ hb1
      have hX : 2 ^ e ≤ base * 2 ^ e := Nat.le_mul_of_pos_left _ hb1
      rw [show min (base * (USIZE - 1)) (USIZE - 1) = USIZE - 1 from
          min_eq_right hY,
        show min (USIZE - 1) maxMs = maxMs from min_eq_right (by omega),
        show min (base * 2 ^ e) maxMs = maxMs from min_eq_right (by omega)]

theorem jitter_le_quarter (capped : Nat) (r : ℚ) (hr0 : 0 ≤ r) (hr1 : r < 1) :
    4 * (⌊(capped : ℚ) * r * (1 / 4)⌋).toNat ≤ capped := by
  set v : ℚ := (capped : ℚ) * r * (1 / 4) with hv
  have hc0 : (0 : ℚ) ≤ (capped : ℚ) := Nat.cast_nonneg capped
  have hv0 : (0 : ℚ) ≤ v := by positivity
  have hfl : (0 : ℤ) ≤ ⌊v⌋ := Int.floor_nonneg.mpr hv0
  have hle : ((⌊v⌋ : ℤ) : ℚ) ≤ v := Int.floor_le v
  have hv4 : 4 * v ≤ (capped : ℚ) := by
    rw [hv]
    nlinarith
  have hq : 4 * ((⌊v⌋.toNat : ℕ) : ℚ) ≤ (capped : ℚ) := by
    have htn : ((⌊v⌋.toNat : ℕ) : ℚ) = ((⌊v⌋ : ℤ) : ℚ) := by
      exact_mod_cast Int.toNat_of_nonneg hfl
    rw [htn]
    nlinarith
  exact_mod_cast hq

/-- Claim C7: for every attempt i ≥ 1, base b and cap m (in milliseconds,
with the cap below 2^63 so the final u64 addition cannot wrap) and every
random factor r ∈ [0, 1), the computed backoff lies in the closed interval
[min(b·2^(i-1), m), 1.25·min(b·2^(i-1), m)] — the exponential value is
clamped to the cap first and at most 25 percent of the clamped value is
added as jitter.  The upper bound is stated integrally as
4·backoff ≤ 5·min(b·2^(i-1), m). -/
theorem calculate_backoff_bounds (base maxMs attempt : Nat) (r : ℚ)
    (hatt : 1 ≤ attempt) (hm : maxMs < 2 ^ 63)
    (hr0 : 0 ≤ r) (hr1 : r < 1) :
    min (base * 2 ^ (attempt - 1)) maxMs ≤
        calculate_backoff base maxMs attempt r ∧
    4 * calculate_backoff base maxMs attempt r ≤
        5 * min (base * 2 ^ (attempt - 1)) maxMs := by
  have hmU : maxMs < USIZE := by
    have : (2 : Nat) ^ 63 < 2 ^ 64 := by norm_num
    simp only [USIZE]
    omega
  simp only [calculate_backoff]
  rw [capped_eq_min base maxMs (attempt - 1) hmU]
  set L := min (base * 2 ^ (attempt - 1)) maxMs with hL
  set j := (⌊(L : ℚ) * r * (1 / 4)⌋).toNat with hj
  have hj4 : 4 * j ≤ L := jitter_le_quarter L r hr0 hr1
  have hLm : L ≤ maxMs := min_le_right _ _
  have hnowrap : (L + j) % USIZE = L + j := by
    apply Nat.mod_eq_of_lt
    simp only [USIZE]
    omega
  rw [hnowrap]
  omega

/-- Witness for C7: the backoff bounds at attempt 1, base 100 ms, cap
5000 ms and random factor 0. -/
theorem calculate_backoff_bounds_witness :
    min (100 * 2 ^ (1 - 1)) 5000 ≤ calculate_backoff 100 5000 1 0 ∧
    4 * calculate_backoff 100 5000 1 0 ≤ 5 * min (100 * 2 ^ (1 - 1)) 5000 :=
  calculate_backoff_bounds 100 5000 1 0 (by decide) (by norm_num)
    (by norm_num) (by norm_num)

/-! ## Configuration (src/config/mod.rs) -/

/-- Rust `BackendConfig`. -/
structure BackendConfig where
  url : Url
  weight : Nat
  max_connections : Nat
  deriving Repr, DecidableEq

/-- Rust `HealthCheckConfig`. -/
structure HealthCheckConfig where
  interval_secs : Nat
  timeout_secs : Nat
  unhealthy_threshold : Nat
  healthy_threshold : Nat
  path : String
  deriving Repr, DecidableEq

/-- Rust `RetryConfig`. -/
structure RetryConfig where
  max_attempts : Nat
  backoff_base_ms : Nat
  backoff_max_ms : Nat
  deriving Repr, DecidableEq

/-- Rust `MetricsConfig`. -/
structure MetricsConfig where
  enabled : Bool
  port : Nat
  path : String
  deriving Repr, DecidableEq

/-- Rust `LoadBalancerConfig`. -/
structure LoadBalancerConfig where
  algorithm : LoadBalancerAlgorithm
  deriving Repr, DecidableEq

/-- Rust `Config`: the validated top-level configuration record.  The breaker
sub-record reuses `CircuitBreakerConfig` with its `timeout` field standing
for `timeout_secs`. -/
structure Config where
  load_balancer : LoadBalancerConfig
  backends : List BackendConfig
  health_check : HealthCheckConfig
  circuit_breaker : CircuitBreakerConfig
  retry : RetryConfig
  metrics : MetricsConfig
  deriving Repr, DecidableEq

/-- The indexed backend loop inside `Config::validate`: bails with the
message of the first offending backend field. -/
def validateBackends : Nat → List BackendConfig → Except String Unit
  | _, [] => .ok ()
  | i, b :: rest =>
      if b.weight = 0 then
        .error s!"Backend {i} has invalid weight: 0"
      else if b.max_connections = 0 then
        .error s!"Backend {i} has invalid max_connections: 0"
      else
        validateBackends (i + 1) rest

/-- Rust `Config::validate`: checks, in order, non-empty backends, per-backend
weight and max_connections, health-check interval, and the breaker failure
threshold — and nothing else. -/
def Config.validate (c : Config) : Except String Unit :=
  if c.backends.isEmpty then
    .error "At least one backend must be configured"
  else
    match validateBackends 0 c.backends with
    | .error e => .error e
    | .ok _ =>
        if c.health_check.interval_secs = 0 then
          .error "Health check interval must be greater than 0"
        else if c.circuit_breaker.failure_threshold = 0 then
          .error "Circuit breaker failure threshold must be greater than 0"
        else
          .ok ()

/-- The full section-3 constraint list exactly as claim C8 enumerates it
(this is the spec-side predicate the code is compared against). -/
def Sect3Constraints (c : Config) : Prop :=
  c.backends ≠ [] ∧
  (∀ b ∈ c.backends, 1 ≤ b.weight ∧ 1 ≤ b.max_connections) ∧
  0 < c.health_check.interval_secs ∧
  1 ≤ c.health_check.unhealthy_threshold ∧
  1 ≤ c.health_check.healthy_threshold ∧
  1 ≤ c.circuit_breaker.failure_threshold ∧
  1 ≤ c.circuit_breaker.success_threshold ∧
  1 ≤ c.retry.max_attempts ∧
  c.retry.backoff_base_ms ≤ c.retry.backoff_max_ms

/-- A configuration violating section 3 (success_threshold = 0, and
backoff_max_ms below backoff_base_ms) that `Config::validate` accepts. -/
def cfgMissingChecks : Config :=
  { load_balancer := ⟨.RoundRobin⟩
    backends := [⟨⟨some "b", some 80⟩, 1, 100⟩]
    health_check := ⟨10, 3, 3, 2, "/health"⟩
    circuit_breaker := ⟨5, 0, 60⟩
    retry := ⟨3, 5000, 100⟩
    metrics := ⟨true, 9090, "/metrics"⟩ }

/-- Claim C8 counterexample: `cfgMissingChecks` violates the section-3
constraints (its breaker success_threshold is 0 and its backoff cap is
below its base) yet validate returns Ok, so validate does not reject every
section-3 violation. -/
theorem config_validate_counterexample :
    Config.validate cfgMissingChecks = .ok () ∧
    ¬ Sect3Constraints cfgMissingChecks := by
  refine ⟨rfl, fun h => ?_⟩
  exact absurd h.2.2.2.2.2.2.1 (by decide)

theorem validateBackends_ok_iff (l : List BackendConfig) : ∀ (i : Nat),
    validateBackends i l = .ok () ↔
      ∀ b ∈ l, b.weight ≠ 0 ∧ b.max_connections ≠ 0 := by
  induction l with
  | nil => intro i; simp [validateBackends]
  | cons b rest ih =>
      intro i
      by_cases hw : b.weight = 0
      · simp [validateBackends, hw]
      · by_cases hm : b.max_connections = 0
        · simp [validateBackends, hw, hm]
        · simp [validateBackends, hw, hm, ih (i + 1)]

/-- Claim C8 amended: `Config::validate` accepts a configuration exactly
when the backend list is non-empty, every backend has nonzero weight and
max_connections, the health-check interval is nonzero and the breaker
failure threshold is nonzero; the remaining section-3 constraints
(unhealthy/healthy thresholds, success_threshold, max_attempts and
backoff_max ≥ backoff_base) are not checked. -/
theorem config_validate_ok_iff (c : Config) :
    c.validate = .ok () ↔
      (c.backends ≠ [] ∧
       (∀ b ∈ c.backends, b.weight ≠ 0 ∧ b.max_connections ≠ 0) ∧
       c.health_check.interval_secs ≠ 0 ∧
       c.circuit_breaker.failure_threshold ≠ 0) := by
  unfold Config.validate
  by_cases he : c.backends.isEmpty
  · rw [if_pos he]
    rw [List.isEmpty_iff] at he
    simp [he]
  · rw [if_neg he]
    rw [List.isEmpty_iff] at he
    cases hvb : validateBackends 0 c.backends with
    | error e =>
        simp only [hvb]
        constructor
        · intro h
          cases h
        · intro h
          have hok := (validateBackends_ok_iff c.backends 0).mpr h.2.1
          rw [hok] at hvb
          cases hvb
    | ok u =>
        cases u
        have hb := (validateBackends_ok_iff c.backends 0).mp hvb
        simp only [hvb]
        by_cases hi : c.health_check.interval_secs = 0
        · simp [hi]
        · by_cases hf : c.circuit_breaker.failure_threshold = 0
          · simp [hi, hf]
          · simp [hi, hf, he]
            exact hb

/-! ## Proxy headers (src/proxy/proxy.rs, forward_request) -/

/-- A hyper `HeaderMap` as an association list: lookup returns the first
value for a name. -/
def headerGet (hs : List (String × String)) (k : String) : Option String :=
  (hs.find? (fun p => p.1 == k)).map Prod.snd

/-- Rust `HeaderMap::insert`: replaces any existing value for the name. -/
def headerInsert (hs : List (String × String)) (k v : String) :
    List (String × String) :=
  (k, v) :: hs.filter (fun p => p.1 != k)

/-- The proxy-header rewriting in `forward_request`: x-forwarded-for is
overwritten with the incoming x-real-ip value, or the literal "unknown"
when that header is absent, and x-request-id is set to the id assigned in
`handle`. -/
def add_proxy_headers (request_id : String) (hs : List (String × String)) :
    List (String × String) :=
  let real_ip := (headerGet hs "x-real-ip").getD "unknown"
  headerInsert (headerInsert hs "x-forwarded-for" real_ip) "x-request-id"
    request_id

/-- The headers of the attempt-th upstream request: `handle_with_retry`
rebuilds each attempt from the same buffered parts and `forward_request`
stamps the same request id, so the attempt number does not enter. -/
def attempt_headers (hs : List (String × String)) (request_id : String)
    (attempt : Nat) : List (String × String) :=
  add_proxy_headers request_id hs

theorem headerGet_insert_self (hs : List (String × String)) (k v : String) :
    headerGet (headerInsert hs k v) k = some v := by
  simp [headerGet, headerInsert, List.find?]

theorem find_filter_ne (k k2 : String) (h : k2 ≠ k) :
    ∀ hs : List (String × String),
      (hs.filter (fun p => p.1 != k2)).find? (fun p => p.1 == k) =
        hs.find? (fun p => p.1 == k) := by
  intro hs
  induction hs with
  | nil => rfl
  | cons p rest ih =>
      by_cases hpk2 : p.1 = k2
      · have h1 : (p.1 != k2) = false := by
          simp [hpk2]
        have h2 : (p.1 == k) = false := by
          rw [hpk2, beq_eq_false_iff_ne]
          exact h
        simp [List.filter_cons, List.find?_cons, h1, h2, ih]
      · have h1 : (p.1 != k2) = true := by
          simp [hpk2]
        by_cases hpk : p.1 = k
        · have h2 : (p.1 == k) = true := by
            simp [hpk]
          simp [List.filter_cons, List.find?_cons, h1, h2]
        · have h2 : (p.1 == k) = false := by
            rw [beq_eq_false_iff_ne]
            exact hpk
          simp [List.filter_cons, List.find?_cons, h1, h2, ih]

theorem headerGet_insert_other (hs : List (String × String)) (k k2 v : String)
    (h : k2 ≠ k) : headerGet (headerInsert hs k2 v) k = headerGet hs k := by
  have hne : (k2 == k) = false := by simpa using h
  simp only [headerGet, headerInsert, List.find?, hne]
  rw [find_filter_ne k k2 h hs]

/-- Claim C9 counterexample: a request arriving with
x-forwarded-for: 9.9.9.9 (so the original client IP is 9.9.9.9) and no
x-real-ip header is forwarded with x-forwarded-for: unknown — the prior
value is discarded rather than appended and the client IP never appears. -/
theorem proxy_headers_counterexample :
    headerGet (add_proxy_headers "rid-1" [("x-forwarded-for", "9.9.9.9")])
        "x-forwarded-for" = some "unknown" ∧
    ("unknown" : String) ≠ "9.9.9.9" := by
  refine ⟨rfl, by decide⟩

/-- Claim C9 amended: on every forwarded attempt the outgoing
x-forwarded-for header is overwritten with the incoming x-real-ip value
(or the literal "unknown" if absent) — not with the client IP, and without
appending any prior x-forwarded-for value — while x-request-id carries the
id assigned once in handle, identical across all retry attempts. -/
theorem proxy_headers_spec (hs : List (String × String)) (request_id : String) :
    (∀ attempt, headerGet (attempt_headers hs request_id attempt)
        "x-request-id" = some request_id) ∧
    (∀ attempt, headerGet (attempt_headers hs request_id attempt)
        "x-forwarded-for" = some ((headerGet hs "x-real-ip").getD "unknown")) ∧
    (∀ i j, attempt_headers hs request_id i = attempt_headers hs request_id j) := by
  refine ⟨fun _ => ?_, fun _ => ?_, fun i j => rfl⟩
  · exact headerGet_insert_self _ _ _
  · unfold attempt_headers add_proxy_headers
    rw [headerGet_insert_other _ _ _ _ (by decide)]
    exact headerGet_insert_self _ _ _

/-! ## Outcome recording in the dispatcher (src/proxy/proxy.rs) -/

/-- Rust `ProxyError` in proxy.rs. -/
inductive ProxyError
  | NoHealthyBackends
  | BackendError (msg : String)
  | Timeout
  | CircuitBreakerOpen (id : String)
  | ConnectionLimitReached (id : String)
  | InvalidUri (msg : String)
  | RequestError (msg : String)
  deriving Repr, DecidableEq

/-- The upstream round-trip outcome seen inside `forward_request`: either a
response carrying an HTTP status, or a transport (hyper client) error. -/
inductive UpstreamResult
  | response (status : Nat)
  | transportError (msg : String)
  deriving Repr, DecidableEq

/-- The result classification of `forward_request`: every response that
arrived with no transport error becomes Ok — whatever its status, 5xx
included; only a transport error becomes Err(BackendError). -/
def forward_result : UpstreamResult → Except ProxyError Nat
  | .response s => .ok s
  | .transportError m => .error (.BackendError m)

/-- The outcome recording of `proxy_request` after the forward returns: on
Ok the breaker records a success and the backend a successful request; on
Err the breaker records a failure and the backend a failed request. -/
def record_outcome (cfg : CircuitBreakerConfig) (now : Nat)
    (cb : CircuitBreaker) (b : Backend) (r : Except ProxyError Nat) :
    CircuitBreaker × Backend :=
  match r with
  | .ok _ => (cb.record_success cfg, b.record_request true)
  | .error _ => (cb.record_failure cfg now, b.record_request false)

/-- A sequence of forwarded attempts recorded in order on one breaker and
one backend. -/
def record_many (cfg : CircuitBreakerConfig) (now : Nat) :
    CircuitBreaker × Backend → List UpstreamResult → CircuitBreaker × Backend
  | st, [] => st
  | st, u :: us =>
      record_many cfg now (record_outcome cfg now st.1 st.2 (forward_result u)) us

/-- The success criterion of the spec (section 4.7 step g): a response with
2xx/3xx status and no transport error. -/
def spec_success : UpstreamResult → Bool
  | .response s => decide (200 ≤ s ∧ s ≤ 399)
  | .transportError _ => false

/-- Claim C1 (code bug): a 5xx upstream response is not recorded as a
failure.  At status 500 the spec success criterion is false, yet
`forward_request` returns Ok, so `proxy_request` records a success on the
breaker and the backend (failed_requests unchanged); after three straight
500 responses under failure_threshold 3 the breaker is still Closed with a
zero failure streak and the backend counts zero failed requests, though the
spec scenario S3 requires the breaker to be Open. -/
theorem dispatcher_records_500_as_success :
    spec_success (.response 500) = false ∧
    forward_result (.response 500) = .ok 500 ∧
    (record_outcome ⟨3, 2, 60⟩ 0 CircuitBreaker.new
        (Backend.new ⟨some "b1", some 80⟩ 1 100)
        (forward_result (.response 500))).1 =
      CircuitBreaker.new.record_success ⟨3, 2, 60⟩ ∧
    (record_outcome ⟨3, 2, 60⟩ 0 CircuitBreaker.new
        (Backend.new ⟨some "b1", some 80⟩ 1 100)
        (forward_result (.response 500))).2.failed_requests =
      (Backend.new ⟨some "b1", some 80⟩ 1 100).failed_requests ∧
    (record_many ⟨3, 2, 60⟩ 0
        (CircuitBreaker.new, Backend.new ⟨some "b1", some 80⟩ 1 100)
        [.response 500, .response 500, .response 500]).1.state =
      .Closed ∧
    (record_many ⟨3, 2, 60⟩ 0
        (CircuitBreaker.new, Backend.new ⟨some "b1", some 80⟩ 1 100)
        [.response 500, .response 500, .response 500]).1.failure_count = 0 ∧
    (record_many ⟨3, 2, 60⟩ 0
        (CircuitBreaker.new, Backend.new ⟨some "b1", some 80⟩ 1 100)
        [.response 500, .response 500, .response 500]).2.failed_requests = 0 := by
  refine ⟨rfl, rfl, rfl, rfl, rfl, rfl, rfl⟩

/-! ## Backend pool (src/proxy/pool.rs) -/

/-- Rust `BackendPool`: the DashMap of backends as an association list plus the
materialized healthy vector. -/
structure BackendPool where
  backends : List (String × Backend)
  healthy_backends : List Backend
  deriving Repr, DecidableEq

/-- Rust `DashMap::insert`: replaces any entry with the same key. -/
def mapInsert (m : List (String × Backend)) (k : String) (v : Backend) :
    List (String × Backend) :=
  (k, v) :: m.filter (fun p => p.1 != k)

/-- The per-config step of the loop in `BackendPool::new`: the fresh
backend is inserted into the map and pushed onto the healthy vector. -/
def poolNewStep (pool : BackendPool) (c : BackendConfig) : BackendPool :=
  { backends := mapInsert pool.backends
      (Backend.new c.url c.weight c.max_connections).id
      (Backend.new c.url c.weight c.max_connections)
    healthy_backends := pool.healthy_backends ++
      [Backend.new c.url c.weight c.max_connections] }

/-- Rust `BackendPool::new`: folds the construction loop over the configured
backends starting from an empty map and an empty healthy vector. -/
def BackendPool.new (configs : List BackendConfig) : BackendPool :=
  configs.foldl poolNewStep { backends := [], healthy_backends := [] }

/-- Rust `BackendPool::get_healthy_backends`: a clone of the healthy vector. -/
def BackendPool.get_healthy_backends (p : BackendPool) : List Backend :=
  p.healthy_backends

/-- Rust `BackendPool::update_healthy_backends`: rebuilds the healthy vector
from the map, keeping exactly the backends whose `is_healthy()` holds. -/
def BackendPool.update_healthy_backends (p : BackendPool) : BackendPool :=
  { p with
    healthy_backends := (p.backends.map Prod.snd).filter Backend.is_healthy }

theorem poolNew_healthy (configs : List BackendConfig) :
    ∀ acc : BackendPool,
      (configs.foldl poolNewStep acc).healthy_backends =
        acc.healthy_backends ++
          configs.map (fun c => Backend.new c.url c.weight c.max_connections) := by
  induction configs with
  | nil => intro acc; simp
  | cons c rest ih =>
      intro acc
      simp [List.foldl_cons, ih, poolNewStep, List.append_assoc]

theorem poolNew_map_unknown (configs : List BackendConfig) :
    ∀ acc : BackendPool,
      (∀ p ∈ acc.backends, p.2.health_status = HealthStatus.Unknown) →
      ∀ p ∈ (configs.foldl poolNewStep acc).backends,
        p.2.health_status = HealthStatus.Unknown := by
  induction configs with
  | nil => intro acc hacc; exact hacc
  | cons c rest ih =>
      intro acc hacc
      apply ih
      intro p hp
      simp only [poolNewStep, mapInsert, List.mem_cons] at hp
      rcases hp with hp | hp
      · rw [hp]
        rfl
      · exact hacc p (List.mem_of_mem_filter hp)

/-- Claim C10: immediately after `BackendPool::new(configs)` the healthy
view contains every configured backend, although each has health_status
Unknown and `is_healthy()` false — so before the first health-check round
the dispatcher selects among backends that are not Healthy; the first
rebuild of the view (with health still Unknown) empties it. -/
theorem pool_initial_healthy_view (configs : List BackendConfig) :
    (BackendPool.new configs).get_healthy_backends =
      configs.map (fun c => Backend.new c.url c.weight c.max_connections) ∧
    (∀ b ∈ (BackendPool.new configs).get_healthy_backends,
      b.health_status = HealthStatus.Unknown ∧ b.is_healthy = false) ∧
    (BackendPool.new configs).update_healthy_backends.get_healthy_backends
      = [] := by
  have h1 := poolNew_healthy configs { backends := [], healthy_backends := [] }
  have hview : (BackendPool.new configs).get_healthy_backends =
      configs.map (fun c => Backend.new c.url c.weight c.max_connections) := by
    simpa [BackendPool.new, BackendPool.get_healthy_backends] using h1
  refine ⟨hview, fun b hb => ?_, ?_⟩
  · rw [hview] at hb
    obtain ⟨c, hc, rfl⟩ := List.mem_map.mp hb
    exact ⟨rfl, rfl⟩
  · have h2 := poolNew_map_unknown configs
      { backends := [], healthy_backends := [] } (by simp)
    simp only [BackendPool.update_healthy_backends,
      BackendPool.get_healthy_backends, BackendPool.new] at h2 ⊢
    rw [List.filter_eq_nil]
    intro b hb
    obtain ⟨p, hp, rfl⟩ := List.mem_map.mp hb
    have hst := h2 p hp
    simp only [Backend.is_healthy, hst]
    decide

/-- Witness for C10: the initial-healthy-view property at one concrete
configured backend. -/
theorem pool_initial_healthy_view_witness :
    (BackendPool.new [⟨⟨some "b", some 80⟩, 1, 100⟩]).get_healthy_backends =
      ([⟨⟨some "b", some 80⟩, 1, 100⟩] : List BackendConfig).map
        (fun c => Backend.new c.url c.weight c.max_connections) ∧
    (∀ b ∈ (BackendPool.new
        [⟨⟨some "b", some 80⟩, 1, 100⟩]).get_healthy_backends,
      b.health_status = HealthStatus.Unknown ∧ b.is_healthy = false) ∧
    (BackendPool.new
        [⟨⟨some "b", some 80⟩, 1, 100⟩]).update_healthy_backends.get_healthy_backends
      = [] :=
  pool_initial_healthy_view [⟨⟨some "b", some 80⟩, 1, 100⟩]
